import Mathlib

/-!
# Verification of the basemixer / videomixer2 core (gst/videomixer)

A shallow embedding of the timing, negotiation and compositing logic of
`gstbasemixer.c` and `videomixer2.c`.  Machine `guint64` clock values are
modelled as `Nat` with the sentinel `GST_CLOCK_TIME_NONE = 2^64 - 1`;
`gdouble` quantities (segment rates, QoS proportion, framerate comparison)
are modelled exactly as rationals; `gint64` differences are `Int`.
Host-framework primitives (`gst_segment_to_running_time`) are carried as
function-valued fields of the embedded state, mirroring the external
interface contract of the framework.
-/

namespace Basemixer

/-- The `GST_SECOND` in nanoseconds. -/
def GST_SECOND : Nat := 1000000000

/-- The `GST_CLOCK_TIME_NONE` = `(guint64)(-1)`. -/
def CLOCK_NONE : Nat := 18446744073709551615

/-- The `gst_util_uint64_scale_round v num denom` : `round (v * num / denom)`
with ties rounded up, computed as `(v * num + denom / 2) / denom`. -/
def scale_round (v num denom : Nat) : Nat := (v * num + denom / 2) / denom

/-- Interpret a `Nat` (a machine `guint64` value) as a signed `gint64`. -/
def toInt64 (n : Nat) : Int :=
  let m : Nat := n % 2 ^ 64
  if m < 2 ^ 63 then (m : Int) else (m : Int) - 2 ^ 64

/-- The `GST_CLOCK_DIFF s e` = `(GstClockTimeDiff)(e - s)` : unsigned
subtraction reinterpreted as a signed 64-bit difference. -/
def clockDiff (s e : Nat) : Int :=
  toInt64 ((((e : Int) - (s : Int)) % (2 ^ 64)).toNat)

/-- The `guint64` addition of a signed `gint64` offset (wraps modulo `2^64`). -/
def addDiff (t : Nat) (d : Int) : Nat :=
  (((t : Int) + d) % (2 ^ 64)).toNat

/-- The conversion applied by `start_time *= ABS (agg->segment.rate)`:
a `gdouble` multiply whose result is stored back into a `GstClockTime`
(truncation toward zero of a non-negative product). -/
def scaleTime (rate : ℚ) (t : Nat) : Nat := ((t : ℚ) * |rate|).floor.toNat

/-- A `GstBuffer` restricted to the metadata the mixer core reads:
`GST_BUFFER_TIMESTAMP` and `GST_BUFFER_DURATION` (each possibly
`CLOCK_NONE`). -/
structure GstBuffer where
  pts : Nat
  duration : Nat
deriving DecidableEq

/-- The `GstBasemixerPad` together with the fields of its base-aggregator pad
(`bpad`) that the mixer core reads: the upstream segment (via its `start`,
`stop` and its `gst_segment_to_running_time` map, the latter a
host-framework primitive carried as a function), the EOS flag, and the
collect fields `queued`, `buffer`, `start_time`, `end_time`. -/
structure GstBasemixerPad where
  zorder : Nat
  infoFpsN : Nat
  infoFpsD : Nat
  infoKnown : Bool
  segStart : Nat
  segStop : Nat
  toRunning : Nat → Nat
  eos : Bool
  queued : Option GstBuffer
  buffer : Option GstBuffer
  startTime : Nat
  endTime : Nat

/-- The `GstBasemixer` together with the fields of its base aggregator
(`agg->segment`, `agg->srcpad`'s running-time map) that the core reads. -/
structure GstBasemixer where
  fmtKnown : Bool
  fpsN : Nat
  fpsD : Nat
  segStart : Nat
  segStop : Nat
  segPosition : Nat
  segRate : ℚ
  srcToRunning : Nat → Nat
  ts_offset : Nat
  nframes : Nat
  proportion : ℚ
  earliestTime : Nat
  qosProcessed : Nat
  qosDropped : Nat
  currentCaps : Option Nat
  sendCaps : Bool
  sendStreamStart : Bool
  newsegPending : Bool
  sinkpads : List GstBasemixerPad

/-! ## QoS update and reset (`gst_basemixer_update_qos`,
`gst_basemixer_reset_qos`, `gst_basemixer_reset`,
`gst_basemixer_change_state`) -/

/-- The `gst_basemixer_update_qos`: store the proportion; when the timestamp
is defined, `earliest_time` becomes `timestamp + 2*diff + frame_duration`
for positive `diff` and `timestamp + diff` otherwise; else it is cleared.
The frame duration is `gst_util_uint64_scale_int_round (GST_SECOND,
fps_d, fps_n)` of the output info. -/
def gst_basemixer_update_qos (m : GstBasemixer) (proportion : ℚ)
    (diff : Int) (timestamp : Nat) : GstBasemixer :=
  { m with
    proportion := proportion
    earliestTime :=
      if timestamp ≠ CLOCK_NONE then
        if 0 < diff then
          addDiff timestamp (2 * diff + (scale_round GST_SECOND m.fpsD m.fpsN : Int))
        else
          addDiff timestamp diff
      else CLOCK_NONE }

/-- The `gst_basemixer_reset_qos`: `update_qos (0.5, 0, NONE)` then zero the
counters. -/
def gst_basemixer_reset_qos (m : GstBasemixer) : GstBasemixer :=
  { gst_basemixer_update_qos m (1/2) 0 CLOCK_NONE with
    qosProcessed := 0
    qosDropped := 0 }

/-- The per-pad part of `gst_basemixer_reset`: replace `buffer` with NULL,
set `start_time`/`end_time` to `-1`, reinitialize the pad's video info.
(The `queued` buffer is not touched by the source.) -/
def resetPad (p : GstBasemixerPad) : GstBasemixerPad :=
  { p with
    buffer := none
    startTime := CLOCK_NONE
    endTime := CLOCK_NONE
    infoKnown := false
    infoFpsN := 0
    infoFpsD := 1 }

/-- The `gst_basemixer_reset`: reinit `mix->info`, zero `ts_offset` and
`nframes`, reinit the output segment with `position = -1`, reset QoS,
reset each pad, set `newseg_pending`.  (`current_caps` is not touched.) -/
def gst_basemixer_reset (m : GstBasemixer) : GstBasemixer :=
  let m := { m with
    fmtKnown := false, fpsN := 0, fpsD := 1
    ts_offset := 0
    nframes := 0
    segStart := 0, segStop := CLOCK_NONE, segRate := 1
    segPosition := CLOCK_NONE }
  let m := gst_basemixer_reset_qos m
  { m with
    sinkpads := m.sinkpads.map resetPad
    newsegPending := true }

/-- The state transitions of `gst_basemixer_change_state`. -/
inductive StateChange
  | readyToPaused
  | pausedToReady
deriving DecidableEq

/-- The `gst_basemixer_change_state`: on READY→PAUSED set `send_stream_start`
and `send_caps`, reinit the segment (position 0) and clear
`current_caps`; after the parent transition, PAUSED→READY runs
`gst_basemixer_reset`. -/
def gst_basemixer_change_state (m : GstBasemixer) (t : StateChange) :
    GstBasemixer :=
  let m := match t with
    | .readyToPaused =>
        { m with
          sendStreamStart := true
          sendCaps := true
          segStart := 0, segStop := CLOCK_NONE, segRate := 1, segPosition := 0
          currentCaps := none }
    | .pausedToReady => m
  match t with
  | .pausedToReady => gst_basemixer_reset m
  | _ => m

/-! ## Queue filler (`gst_basemixer_fill_queues`) -/

/-- What one iteration of the `fill_queues` pad loop contributes to the
loop's `need_more_data` / `eos` accumulators: `err` aborts with `-2`,
`needMore` sets `need_more_data`, `active` clears `eos`, `neutral`
touches neither. -/
inductive PadOutcome
  | err
  | needMore
  | active
  | neutral
deriving DecidableEq

/-- The tail of the `fill_queues` loop body, from `end_time += start_time`
on: segment check, clip, conversion to running time, output-rate scaling,
past-check against `pad->end_time`, then promote / keep / drop.
`fromQueued` records whether `buf` is `pad->queued` (which must then be
cleared when consumed or dropped). -/
def fillQueuesBody (segRate : ℚ) (output_start_time output_end_time : Nat)
    (p : GstBasemixerPad) (buf : GstBuffer) (fromQueued : Bool)
    (start_time end_time : Nat) : GstBasemixerPad × PadOutcome :=
  let end_time := end_time + start_time
  -- Check if it's inside the segment
  if start_time ≥ p.segStop ∨ end_time < p.segStart then
    (if fromQueued then { p with queued := none } else p, .needMore)
  else
    -- Clip to segment and convert to running time
    let start_time := max start_time p.segStart
    let end_time := if p.segStop ≠ CLOCK_NONE then min end_time p.segStop
                    else end_time
    let start_time := p.toRunning start_time
    let end_time := p.toRunning end_time
    -- Convert to the output segment rate
    let start_time := if |segRate| ≠ 1 then scaleTime segRate start_time
                      else start_time
    let end_time := if |segRate| ≠ 1 then scaleTime segRate end_time
                    else end_time
    if p.endTime ≠ CLOCK_NONE ∧ end_time < p.endTime then
      (if fromQueued then { p with queued := none } else p, .needMore)
    else if end_time ≥ output_start_time ∧ start_time < output_end_time then
      ({ p with buffer := some buf
                startTime := start_time
                endTime := end_time
                queued := if fromQueued then none else p.queued }, .active)
    else if start_time ≥ output_end_time then
      (p, .active)
    else
      (if fromQueued then { p with queued := none } else p, .needMore)

/-- One iteration of the pad loop of `gst_basemixer_fill_queues`, for the
pad `p` whose base-aggregator pad currently offers `incoming`
(`gst_base_aggregator_pad_get_buffer`).  `segRate` is
`agg->segment.rate`. -/
def fillQueuesPad (segRate : ℚ) (output_start_time output_end_time : Nat)
    (p : GstBasemixerPad) (incoming : Option GstBuffer) :
    GstBasemixerPad × PadOutcome :=
  match incoming with
  | some buf =>
    let start_time := buf.pts
    if start_time = CLOCK_NONE then (p, .err)
    else if (∃ b ∈ p.buffer, start_time < b.pts) ∨
            (∃ q ∈ p.queued, start_time < q.pts) then
      -- "Buffer from the past, dropping"
      (p, .needMore)
    else
      match p.queued with
      | some q =>
        -- the new buffer's start defines the queued buffer's end
        let end_time := start_time - q.pts
        let start_time := q.pts
        fillQueuesBody segRate output_start_time output_end_time p q true
          start_time end_time
      | none =>
        let end_time := buf.duration
        if end_time = CLOCK_NONE then
          ({ p with queued := some buf }, .needMore)
        else
          fillQueuesBody segRate output_start_time output_end_time p buf false
            start_time end_time
  | none =>
    if p.endTime ≠ CLOCK_NONE then
      if p.endTime ≤ output_start_time then
        let p := { p with buffer := none,
                          startTime := CLOCK_NONE, endTime := CLOCK_NONE }
        if p.eos then (p, .needMore) else (p, .neutral)
      else if p.eos then (p, .active)
      else (p, .neutral)
    else (p, .neutral)

/-- Return value of `gst_basemixer_fill_queues`
(`1 / 0 / -1 / -2`). -/
inductive FillStatus
  | ok
  | needMoreData
  | eos
  | error
deriving DecidableEq

/-- The pad loop of `gst_basemixer_fill_queues` over the pad list; `err`
short-circuits (later pads untouched), otherwise accumulate
`need_more_data` and `eos`. -/
def fillQueuesGo (segRate : ℚ) (output_start_time output_end_time : Nat) :
    List GstBasemixerPad → List (Option GstBuffer) →
    List GstBasemixerPad × Option (Bool × Bool)
  | [], _ => ([], some (false, true))
  | p :: ps, ins =>
    let step := fillQueuesPad segRate output_start_time output_end_time p
        (ins.headD none)
    match step.2 with
    | .err => (step.1 :: ps, none)
    | oc =>
      let rest := fillQueuesGo segRate output_start_time output_end_time
          ps ins.tail
      (step.1 :: rest.1,
       rest.2.map (fun nmEos =>
         (nmEos.1 || decide (oc = .needMore),
          nmEos.2 && !decide (oc = .active))))

/-- The `gst_basemixer_fill_queues`: run the pad loop, then
`need_more_data → 0`, `eos → -1`, else `1` (`-2` on error). -/
def gst_basemixer_fill_queues (segRate : ℚ)
    (output_start_time output_end_time : Nat) (pads : List GstBasemixerPad)
    (ins : List (Option GstBuffer)) : List GstBasemixerPad × FillStatus :=
  let go := fillQueuesGo segRate output_start_time output_end_time pads ins
  (go.1,
   match go.2 with
   | none => .error
   | some (true, _) => .needMoreData
   | some (false, true) => .eos
   | some (false, false) => .ok)

/-! ## Sink-side clipping (`gst_basemixer_sink_clip`) -/

/-- The duration used by `gst_basemixer_sink_clip`: the buffer's own
duration or, when missing and the pad framerate is nonzero,
`gst_util_uint64_scale_int_round (GST_SECOND, fps_d, fps_n)`. -/
def sinkClipDuration (p : GstBasemixerPad) (buf : GstBuffer) : Nat :=
  if buf.duration = CLOCK_NONE ∧ p.infoFpsN ≠ 0 then
    scale_round GST_SECOND p.infoFpsD p.infoFpsN
  else buf.duration

/-- The `[start_time, end_time]` pair computed by
`gst_basemixer_sink_clip` after clipping to the pad segment, conversion
to running time, and output-rate scaling. -/
def sinkClipTimes (segRate : ℚ) (p : GstBasemixerPad) (pts dur : Nat) :
    Nat × Nat :=
  let start_time := p.toRunning (max pts p.segStart)
  let end_time := dur + pts
  let end_time := if p.segStop ≠ CLOCK_NONE then min end_time p.segStop
                  else end_time
  let end_time := p.toRunning end_time
  if |segRate| ≠ 1 then
    (scaleTime segRate start_time, scaleTime segRate end_time)
  else (start_time, end_time)

/-- The `gst_basemixer_sink_clip`.  `bpadBuffer` is `bpad->buffer`, the
buffer currently held by the base-aggregator pad.  `none` is
`GST_FLOW_ERROR`; `some none` drops the buffer; `some (some buf)` passes
it on. -/
def gst_basemixer_sink_clip (segRate : ℚ) (p : GstBasemixerPad)
    (bpadBuffer : Option GstBuffer) (buf : GstBuffer) :
    Option (Option GstBuffer) :=
  if buf.pts = CLOCK_NONE then none
  else
    let dur := sinkClipDuration p buf
    if dur = CLOCK_NONE then some (some buf)
    else
      let se := sinkClipTimes segRate p buf.pts dur
      if bpadBuffer ≠ none ∧ se.2 < p.endTime then some none
      else some (some buf)

/-! ## QoS decision and the aggregate loop (`gst_basemixer_do_qos`,
`gst_basemixer_aggregate`) -/

/-- The `gst_basemixer_do_qos`: `-1` ("process") when the timestamp or the
QoS observation is undefined, otherwise the jitter
`GST_CLOCK_DIFF (qostime, earliest_time)` where `qostime` is the running
time of the timestamp in the output segment.  (Both return statements of
the source return `jitter`; the frame is dropped by the caller iff the
result is positive.) -/
def gst_basemixer_do_qos (m : GstBasemixer) (timestamp : Nat) : Int :=
  if timestamp = CLOCK_NONE then -1
  else if m.earliestTime = CLOCK_NONE then -1
  else clockDiff (m.srcToRunning timestamp) m.earliestTime

/-- The `output_start_time` of one aggregate tick: `segment.position`, or
`segment.start` when the position is undefined. -/
def outStartOf (m : GstBasemixer) : Nat :=
  if m.segPosition = CLOCK_NONE then m.segStart else m.segPosition

/-- The `output_end_time` of one aggregate tick:
`ts_offset + gst_util_uint64_scale_round (nframes + 1, GST_SECOND * fps_d,
fps_n) + segment.start`, clamped to `segment.stop` when defined. -/
def outEndOf (m : GstBasemixer) : Nat :=
  let e := m.ts_offset +
      scale_round (m.nframes + 1) (GST_SECOND * m.fpsD) m.fpsN + m.segStart
  if m.segStop ≠ CLOCK_NONE then min e m.segStop else e

/-- The output cadence: the value `ts_offset +
round(k · GST_SECOND · fps_d / fps_n) + segment.start` that
`output_end_time` takes at frame counter `k` (before stop clamping). -/
def cadence (m : GstBasemixer) (k : Nat) : Nat :=
  m.ts_offset + scale_round k (GST_SECOND * m.fpsD) m.fpsN + m.segStart

/-- The timing invariant maintained by the aggregate loop between flushes
and seeks: `segment.position` is undefined (fresh/flushed) or sits on the
cadence at the current frame counter (as (re)established by each tick and
by the `ts_offset = position − start, nframes = 0` reanchoring). -/
def CadenceInv (m : GstBasemixer) : Prop :=
  m.segPosition = CLOCK_NONE ∨ m.segPosition = cadence m m.nframes

/-- The `GstFlowReturn` values produced by `gst_basemixer_aggregate`. -/
inductive Flow
  | ok
  | eosFlow
  | errorFlow
  | notNegotiated
deriving DecidableEq

/-- The QoS message posted by the drop branch of
`gst_basemixer_aggregate` (`gst_message_set_qos_values` /
`gst_message_set_qos_stats` payload relevant here). -/
structure QosMsg where
  jitter : Int
  proportion : ℚ
  processed : Nat
  dropped : Nat
deriving DecidableEq

/-- Observable output of one aggregate tick: the flow return, the
timestamp/duration attached to an emitted output buffer (stamped by
`gst_basemixer_blend_buffers`, lines setting `GST_BUFFER_TIMESTAMP` and
`GST_BUFFER_DURATION` of `*outbuf`), and any posted QoS message. -/
structure AggOut where
  flow : Flow
  emitted : Option (Nat × Nat)
  qosMsg : Option QosMsg

/-- One tick of `gst_basemixer_aggregate`, with the buffers currently
offered by the base-aggregator pads passed in positionally.  Caps
renegotiation (`gst_pad_check_reconfigure` / `send_caps`) is modelled as
inactive: no reconfigure is pending on the source pad during the ticks
considered here. -/
def gst_basemixer_aggregate (m : GstBasemixer)
    (ins : List (Option GstBuffer)) : GstBasemixer × AggOut :=
  if ¬m.fmtKnown then (m, ⟨.notNegotiated, none, none⟩)
  else
    let output_start_time := outStartOf m
    let output_end_time := outEndOf m
    let fq := gst_basemixer_fill_queues m.segRate
        output_start_time output_end_time m.sinkpads ins
    let m1 := { m with sinkpads := fq.1 }
    match fq.2 with
    | .needMoreData => (m1, ⟨.ok, none, none⟩)
    | .eos => (m1, ⟨.eosFlow, none, none⟩)
    | .error => (m1, ⟨.errorFlow, none, none⟩)
    | .ok =>
      let jitter := gst_basemixer_do_qos m1 output_start_time
      if jitter ≤ 0 then
        ({ m1 with qosProcessed := m1.qosProcessed + 1
                   segPosition := output_end_time
                   nframes := m1.nframes + 1 },
         ⟨.ok, some (output_start_time, output_end_time - output_start_time),
          none⟩)
      else
        ({ m1 with qosDropped := m1.qosDropped + 1
                   segPosition := output_end_time
                   nframes := m1.nframes + 1 },
         ⟨.ok, none,
          some ⟨jitter, m1.proportion, m1.qosProcessed, m1.qosDropped + 1⟩⟩)

/-- A sequence of aggregate ticks (without intervening flush or seek),
collecting the `(timestamp, duration)` pairs of the emitted output
buffers in order. -/
def runTicks (m : GstBasemixer) :
    List (List (Option GstBuffer)) → GstBasemixer × List (Nat × Nat)
  | [] => (m, [])
  | ins :: rest =>
    let step := gst_basemixer_aggregate m ins
    let run := runTicks step.1 rest
    (run.1, match step.2.emitted with
            | some e => e :: run.2
            | none => run.2)

/-! ## Output caps selection (`gst_basemixer_update_src_caps`) -/

/-- The per-pad video info read by the selection loop of
`gst_basemixer_update_src_caps` (all `gint` fields). -/
structure PadCapsInfo where
  width : Int
  height : Int
  fpsN : Int
  fpsD : Int
deriving DecidableEq

/-- The accumulator of the selection loop (`best_width`, `best_height`,
`best_fps`, `best_fps_n`, `best_fps_d`), each initialized to `-1`. -/
structure BestSel where
  best_width : Int
  best_height : Int
  best_fps : ℚ
  best_fps_n : Int
  best_fps_d : Int
deriving DecidableEq

/-- The `gst_util_fraction_to_double` of a pad's framerate, with the loop's
`fps_d == 0 → 0.0` guard.  The `gdouble` value is modelled exactly as a
rational (note `(n : ℚ) / 0 = 0` agrees with the guard). -/
def fpsOf (p : PadCapsInfo) : ℚ :=
  if p.fpsD = 0 then 0 else (p.fpsN : ℚ) / (p.fpsD : ℚ)

/-- One iteration of the selection loop: skip pads with zero width or
height, otherwise fold in the width/height maxima and the strictly
larger framerate. -/
def selStep (b : BestSel) (p : PadCapsInfo) : BestSel :=
  if p.width = 0 ∨ p.height = 0 then b
  else
    let b := { b with
      best_width := if b.best_width < p.width then p.width else b.best_width
      best_height :=
        if b.best_height < p.height then p.height else b.best_height }
    let cur_fps := fpsOf p
    if b.best_fps < cur_fps then
      { b with best_fps := cur_fps, best_fps_n := p.fpsN, best_fps_d := p.fpsD }
    else b

/-- The selection stage of `gst_basemixer_update_src_caps`: loop over the
sink pads, then default the framerate to `25/1` when
`best_fps_n <= 0 || best_fps_d <= 0 || best_fps == 0.0`. -/
def gst_basemixer_update_src_caps_sel (pads : List PadCapsInfo) : BestSel :=
  let b := pads.foldl selStep ⟨-1, -1, -1, -1, -1⟩
  if b.best_fps_n ≤ 0 ∨ b.best_fps_d ≤ 0 ∨ b.best_fps = 0 then
    { b with best_fps := 25, best_fps_n := 25, best_fps_d := 1 }
  else b

/-- The pads actually considered by the selection loop: those with
nonzero width and height. -/
def capsContrib (pads : List PadCapsInfo) : List PadCapsInfo :=
  pads.filter (fun p => decide (¬(p.width = 0 ∨ p.height = 0)))

/-- The framerate part of `selStep` in isolation, acting on the
`(best_fps, best_fps_n, best_fps_d)` triple. -/
def fpsStep (t : ℚ × Int × Int) (p : PadCapsInfo) : ℚ × Int × Int :=
  if t.1 < fpsOf p then (fpsOf p, p.fpsN, p.fpsD) else t

/-! ## Output format election (`gst_basemixer_update_converters`) -/

/-- A video format as the election loop sees it: its enum code and
whether `finfo->flags` carries `GST_VIDEO_FORMAT_FLAG_ALPHA`. -/
structure VFmt where
  code : Nat
  alpha : Bool
deriving DecidableEq

/-- The `GST_VIDEO_FORMAT_UNKNOWN`. -/
def VFmt.unknown : VFmt := ⟨0, false⟩

/-- Downstream capability as consumed by the election: result of
`gst_pad_get_allowed_caps` (possibly empty), the
`gst_caps_can_intersect` test against a pad format whose
width/height/framerate/PAR/interlace fields have been removed, and the
format obtained by `gst_caps_fixate` when no input candidate remains. -/
structure DownstreamCaps where
  empty : Bool
  accepts : Nat → Bool
  fixated : VFmt

/-- The running state of the election loop (`need_alpha`,
`at_least_one_alpha`, `best_format`/`best_info`, `best_format_number`,
and the `formats_table` occurrence counts, modelled as an association
list whose most recent entry wins). -/
structure ConvSel where
  need_alpha : Bool
  at_least_one_alpha : Bool
  best : VFmt
  best_format_number : Nat
  counts : List (Nat × Nat)

/-- The `g_hash_table_lookup` on the occurrence table (`NULL ↦ 0`). -/
def lookupCount (counts : List (Nat × Nat)) (c : Nat) : Nat :=
  (counts.lookup c).getD 0

/-- One iteration of the election loop of
`gst_basemixer_update_converters`; `pf = none` models a pad whose
`info.finfo` is unset. -/
def convStep (ds : DownstreamCaps) (s : ConvSel) (pf : Option VFmt) :
    ConvSel :=
  match pf with
  | none => s
  | some f =>
    let s := { s with at_least_one_alpha := s.at_least_one_alpha || f.alpha }
    -- If we want alpha, disregard all the other formats
    if s.need_alpha ∧ ¬f.alpha then s
    else if f = VFmt.unknown then s
    -- Can downstream accept this format ?
    else if ¬ds.accepts f.code then s
    else
      let format_number := lookupCount s.counts f.code + 1
      let s := { s with counts := (f.code, format_number) :: s.counts }
      -- If that pad is the first with alpha, set it as the new best format
      if ¬s.need_alpha ∧ f.alpha then
        { s with need_alpha := true, best := f,
                 best_format_number := format_number }
      else if format_number > s.best_format_number then
        { s with best := f, best_format_number := format_number }
      else s

/-- The format elected by `gst_basemixer_update_converters`: the loop's
best format, or the fixated downstream format when it stayed unknown. -/
def electedFmt (ds : DownstreamCaps) (padFmts : List (Option VFmt)) : VFmt :=
  let s := padFmts.foldl (convStep ds) ⟨false, false, VFmt.unknown, 0, []⟩
  if s.best = VFmt.unknown then ds.fixated else s.best

/-- Result of `gst_basemixer_update_converters` up to the recording of
`mix->info` (converter construction for the individual pads follows and
can only add further failures). -/
inductive ConvResult
  | emptyCaps
  | alphaError
  | success (f : VFmt)
deriving DecidableEq

/-- The `gst_basemixer_update_converters`: fail on empty downstream caps;
elect the output format; fail with the negotiation error when some input
has alpha but the elected format has none. -/
def gst_basemixer_update_converters (ds : DownstreamCaps)
    (padFmts : List (Option VFmt)) : ConvResult :=
  if ds.empty then .emptyCaps
  else
    let s := padFmts.foldl (convStep ds) ⟨false, false, VFmt.unknown, 0, []⟩
    let best := if s.best = VFmt.unknown then ds.fixated else s.best
    if s.at_least_one_alpha ∧ ¬best.alpha then .alphaError
    else .success best

/-! ## Z-order maintenance and compositing order
(`gst_basemixer_pad_set_property`, `gst_basemixer_request_new_pad`,
`gst_basemixer_release_pad`, `gst_videomixer2_mix_frames`) -/

/-- The view of a pad needed for z-ordering: its identity, its `zorder`,
and whether `pad->mixed_frame` is non-NULL when `mix_frames` runs. -/
structure ZPad where
  id : Nat
  zorder : Nat
  contributes : Bool
deriving DecidableEq

/-- The `pad_zorder_compare` as a Boolean "less or equal" on z-orders
(GLib comparators sort ascending). -/
def zle (a b : ZPad) : Bool := a.zorder ≤ b.zorder

/-- The `gst_basemixer_pad_set_property (PROP_PAD_ZORDER)`: store the new
z-order on the target pad, then `g_slist_sort` the pad list with
`pad_zorder_compare` (a stable merge sort). -/
def gst_basemixer_pad_set_zorder (pads : List ZPad) (target z : Nat) :
    List ZPad :=
  (pads.map (fun p => if p.id = target then { p with zorder := z } else p)).mergeSort zle

/-- The `g_slist_insert_sorted`: walk while the comparator is positive
(`new.zorder > cur.zorder`), insert before the first element not below
the new one. -/
def insertSorted (p : ZPad) : List ZPad → List ZPad
  | [] => [p]
  | q :: rest =>
    if p.zorder > q.zorder then q :: insertSorted p rest else p :: q :: rest

/-- The pad-list bookkeeping of `gst_basemixer_request_new_pad`: the new
pad gets `zorder = mix->numpads` and is inserted sorted; `numpads` is the
list length. -/
def gst_basemixer_request_new_pad (pads : List ZPad) (newId : Nat)
    (contributes : Bool) : List ZPad :=
  insertSorted ⟨newId, pads.length, contributes⟩ pads

/-- The pad-list bookkeeping of `gst_basemixer_release_pad`:
`g_slist_remove` of the pad. -/
def gst_basemixer_release_pad (pads : List ZPad) (target : Nat) :
    List ZPad :=
  pads.eraseP (fun p => p.id = target)

/-- The compositing order of `gst_videomixer2_mix_frames`: the pads are
walked in list order and each pad with a non-NULL `mixed_frame` is
composited. -/
def gst_videomixer2_mix_frames_order (pads : List ZPad) : List ZPad :=
  pads.filter (·.contributes)

/-! ## Concrete fixtures used by witnesses and counterexamples -/

/-- A mixer in a freshly negotiated 10 fps state (identity output
segment, no QoS observation, no pads). -/
def mixBase : GstBasemixer :=
  { fmtKnown := true, fpsN := 10, fpsD := 1, segStart := 0,
    segStop := CLOCK_NONE, segPosition := CLOCK_NONE, segRate := 1,
    srcToRunning := fun t => t, ts_offset := 0, nframes := 0,
    proportion := 1/2, earliestTime := CLOCK_NONE, qosProcessed := 0,
    qosDropped := 0, currentCaps := none, sendCaps := false,
    sendStreamStart := false, newsegPending := false, sinkpads := [] }

/-- A pad over the identity segment `[0, ∞)` with nothing promoted. -/
def padBase : GstBasemixerPad :=
  { zorder := 0, infoFpsN := 0, infoFpsD := 1, infoKnown := true,
    segStart := 0, segStop := CLOCK_NONE, toRunning := fun t => t,
    eos := false, queued := none, buffer := none,
    startTime := CLOCK_NONE, endTime := CLOCK_NONE }

/-- A mixer state with announced caps and a pad holding a queued
buffer, about to go to READY. -/
def mixC8 : GstBasemixer :=
  { mixBase with
    currentCaps := some 7
    sinkpads := [{ padBase with queued := some ⟨1, 2⟩ }] }

/-- A pad that keeps the tick alive without new input: a promoted buffer
`[0, 5]` on an EOS pad. -/
def padLive : GstBasemixerPad :=
  { padBase with
    eos := true
    startTime := 0
    endTime := 5
    buffer := some ⟨0, 5⟩ }

/-- A negotiated 10 fps mixer with one live pad. -/
def mixTick : GstBasemixer := { mixBase with sinkpads := [padLive] }

/-- The mixer of `mixTick` after a downstream QoS event put
`earliest_time = 1 s` (the next frame at running time `0` is a second
late). -/
def mixLate : GstBasemixer := { mixTick with earliestTime := 1000000000 }

/-- The spec's scenario 5 fixture: one AYUV (alpha) input, downstream
accepting only I420 and fixating to I420. -/
def dsI420 : DownstreamCaps :=
  { empty := false, accepts := fun c => c = 2, fixated := ⟨2, false⟩ }

/-- Ascending z-order, the order maintained on `mix->sinkpads`. -/
def zorderLE (a b : ZPad) : Prop := a.zorder ≤ b.zorder

instance : DecidableRel zorderLE :=
  fun a b => inferInstanceAs (Decidable (a.zorder ≤ b.zorder))

/-- A sorted two-pad fixture for the z-order witness. -/
def demoPads : List ZPad := [⟨10, 1, true⟩, ⟨11, 2, true⟩]

/-- A pad that stays live for many ticks: a promoted buffer covering
`[0, 1 s]` on an EOS pad. -/
def padLive2 : GstBasemixerPad :=
  { padBase with
    eos := true
    startTime := 0
    endTime := 1000000000
    buffer := some ⟨0, 5⟩ }

/-- The 10 fps mixer with the long-lived pad. -/
def mixTick2 : GstBasemixer := { mixBase with sinkpads := [padLive2] }

/-- A mixer negotiated at the extreme framerate `2147483647/1`
(representable in the caps range `[0/1, MAXINT/1]`), whose frame period
rounds to 0 ns. -/
def mixC2cex : GstBasemixer :=
  { mixBase with
    fpsN := 2147483647
    fpsD := 1
    sinkpads := [padLive2] }

/-! ## C6 — downstream QoS events -/

/-- C6: on a downstream QoS event carrying timestamp `t`, proportion `p`
and diff `d`, the mixer sets `proportion = p` and
`earliest_time = t + d + (if d > 0 then d + frame_duration else 0)` where
the frame duration is `GST_SECOND * fps_d / fps_n` rounded; an undefined
timestamp clears `earliest_time`. -/
theorem C6_update_qos (m : GstBasemixer) (p : ℚ) (d : Int) (t : Nat)
    (hfps : 0 < m.fpsN)
    (ht : t ≠ CLOCK_NONE)
    (ht2 : t < 2 ^ 64)
    (hbound : (t : Int) + 2 * d +
      (scale_round GST_SECOND m.fpsD m.fpsN : Int) < 2 ^ 64)
    (hnonneg : 0 ≤ (t : Int) + d) :
    (gst_basemixer_update_qos m p d t).proportion = p ∧
    (gst_basemixer_update_qos m p d t).earliestTime =
      ((t : Int) + d +
        (if 0 < d then
          d + (scale_round GST_SECOND m.fpsD m.fpsN : Int)
        else 0)).toNat ∧
    (gst_basemixer_update_qos m p d CLOCK_NONE).earliestTime = CLOCK_NONE := by
  refine ⟨rfl, ?_, by simp [gst_basemixer_update_qos]⟩
  simp only [gst_basemixer_update_qos, addDiff, ht, ne_eq,
    not_false_iff, if_true]
  by_cases hd : 0 < d
  · rw [if_pos hd, if_pos hd]
    have h1 : (0:Int) ≤ (t : Int) + (2 * d +
        (scale_round GST_SECOND m.fpsD m.fpsN : Int)) := by positivity
    rw [Int.emod_eq_of_lt h1 (by omega)]
    congr 1
    ring
  · rw [if_neg hd, if_neg hd]
    have h2 : (t : Int) + d < 2 ^ 64 := by omega
    rw [Int.emod_eq_of_lt hnonneg h2]
    omega

/-- C6 witness: a QoS event with `t = 100` ns, `d = 5` ns, proportion
`3/4` on a 10 fps mixer. -/
theorem C6_update_qos_witness :
    (gst_basemixer_update_qos mixBase (3/4) 5 100).proportion = 3/4 ∧
    (gst_basemixer_update_qos mixBase (3/4) 5 100).earliestTime =
      ((100 : Int) + 5 +
        (if (0 : Int) < 5 then
          5 + (scale_round GST_SECOND mixBase.fpsD mixBase.fpsN : Int)
        else 0)).toNat ∧
    (gst_basemixer_update_qos mixBase (3/4) 5 CLOCK_NONE).earliestTime =
      CLOCK_NONE :=
  C6_update_qos mixBase (3/4) 5 100 (by decide) (by decide) (by decide)
    (by decide) (by decide)

/-! ## C8 — full reset on the transition to READY -/

/-- C8 (amended): the PAUSED→READY transition runs the full reset:
`out_info` reinitialized to unknown, `ts_offset` and `nframes` zeroed,
the output segment reinitialized with `position` undefined, QoS reset,
and every pad's current buffer freed with `start_time`/`end_time` set to
undefined — but `current_caps` is left untouched (it is cleared on the
READY→PAUSED transition instead) and pads' `queued` buffers are not
freed. -/
theorem C8_change_state_reset (m : GstBasemixer) :
    (gst_basemixer_change_state m .pausedToReady).fmtKnown = false ∧
    (gst_basemixer_change_state m .pausedToReady).ts_offset = 0 ∧
    (gst_basemixer_change_state m .pausedToReady).nframes = 0 ∧
    (gst_basemixer_change_state m .pausedToReady).segStart = 0 ∧
    (gst_basemixer_change_state m .pausedToReady).segStop = CLOCK_NONE ∧
    (gst_basemixer_change_state m .pausedToReady).segPosition = CLOCK_NONE ∧
    (gst_basemixer_change_state m .pausedToReady).proportion = 1/2 ∧
    (gst_basemixer_change_state m .pausedToReady).earliestTime = CLOCK_NONE ∧
    (gst_basemixer_change_state m .pausedToReady).qosProcessed = 0 ∧
    (gst_basemixer_change_state m .pausedToReady).qosDropped = 0 ∧
    (gst_basemixer_change_state m .pausedToReady).newsegPending = true ∧
    (∀ p ∈ (gst_basemixer_change_state m .pausedToReady).sinkpads,
      p.buffer = none ∧ p.startTime = CLOCK_NONE ∧ p.endTime = CLOCK_NONE) ∧
    (gst_basemixer_change_state m .pausedToReady).currentCaps =
      m.currentCaps ∧
    (gst_basemixer_change_state m .pausedToReady).sinkpads.map
      (fun p => p.queued) = m.sinkpads.map (fun p => p.queued) := by
  have hred : gst_basemixer_change_state m .pausedToReady =
      gst_basemixer_reset m := rfl
  rw [hred]
  refine ⟨rfl, rfl, rfl, rfl, rfl, rfl, rfl, rfl, rfl, rfl, rfl, ?_, rfl, ?_⟩
  · intro p hp
    simp only [gst_basemixer_reset, gst_basemixer_reset_qos,
      gst_basemixer_update_qos, List.mem_map] at hp
    obtain ⟨q, _, rfl⟩ := hp
    exact ⟨rfl, rfl, rfl⟩
  · simp only [gst_basemixer_reset, gst_basemixer_reset_qos,
      gst_basemixer_update_qos, List.map_map]
    rfl

/-- C8 counterexample: going PAUSED→READY neither clears `current_caps`
nor frees the pad's `queued` buffer, contradicting the claimed reset
postcondition. -/
theorem C8_change_state_cex :
    (gst_basemixer_change_state mixC8 .pausedToReady).currentCaps = some 7 ∧
    (gst_basemixer_change_state mixC8 .pausedToReady).currentCaps ≠ none ∧
    (gst_basemixer_change_state mixC8 .pausedToReady).sinkpads.map
      (fun p => p.queued) = [some ⟨1, 2⟩] := by
  exact ⟨rfl, by decide, rfl⟩

/-! ## C7 — sink-side clip drop rule -/

/-- C7 (amended): in `gst_basemixer_sink_clip`, an incoming buffer is
dropped exactly when the base-aggregator pad currently holds a buffer
**and** the computed end time (after duration derivation, clipping,
running-time conversion and rate scaling) lies **strictly before** the
pad's current `end_time`; in particular every such buffer is dropped. -/
theorem C7_sink_clip_drop (r : ℚ) (p : GstBasemixerPad)
    (bb : Option GstBuffer) (buf : GstBuffer)
    (hpts : buf.pts ≠ CLOCK_NONE)
    (hdur : sinkClipDuration p buf ≠ CLOCK_NONE)
    (hbb : bb ≠ none)
    (hlt : (sinkClipTimes r p buf.pts (sinkClipDuration p buf)).2 <
      p.endTime) :
    gst_basemixer_sink_clip r p bb buf = some none := by
  simp [gst_basemixer_sink_clip, hpts, hdur, hbb, hlt]

/-- C7 witness: with the pad's `end_time = 10` and a held buffer, an
incoming buffer `[0, 4]` (end `4 < 10`) is dropped. -/
theorem C7_sink_clip_drop_witness :
    gst_basemixer_sink_clip 1 { padBase with endTime := 10 }
      (some ⟨0, 1⟩) ⟨0, 4⟩ = some none :=
  C7_sink_clip_drop 1 { padBase with endTime := 10 } (some ⟨0, 1⟩) ⟨0, 4⟩
    (by decide) (by decide) (by decide) (by decide)

/-- C7 counterexample: a buffer whose computed end time equals the pad's
current `end_time` (here both `10`) is **not** dropped (the source drops
only on strict `<`), contradicting "at or before". -/
theorem C7_sink_clip_cex :
    (sinkClipTimes 1 { padBase with endTime := 10 } 6
        (sinkClipDuration { padBase with endTime := 10 } ⟨6, 4⟩)).2 =
      ({ padBase with endTime := 10 } : GstBasemixerPad).endTime ∧
    gst_basemixer_sink_clip 1 { padBase with endTime := 10 }
      (some ⟨0, 1⟩) ⟨6, 4⟩ = some (some ⟨6, 4⟩) ∧
    gst_basemixer_sink_clip 1 { padBase with endTime := 10 }
      (some ⟨0, 1⟩) ⟨6, 4⟩ ≠ some none := by
  refine ⟨by decide, by decide, by decide⟩

/-! ## C1 — output-rate scaling of buffer intervals -/

/-- C1 (amended): with output segment rate `r`, `|r| ≠ 1`, a buffer whose
interval after segment clipping and conversion to running time is
`[a, b]` is assigned the output-timeline interval
`[⌊a·|r|⌋, ⌊b·|r|⌋]` — **multiplied** by `|r|`, not divided — both by the
queue filler (promoted `start_time`/`end_time`) and by the sink-side clip
step; after a flushing seek to rate `2.0`, subsequent intervals are
doubled. -/
theorem C1_rate_scaling (r : ℚ) (outS outE : Nat) (p : GstBasemixerPad)
    (buf : GstBuffer) (a b : Nat)
    (hr : ¬|r| = 1)
    (hpts : buf.pts ≠ CLOCK_NONE)
    (hpast : ¬((∃ bb ∈ p.buffer, buf.pts < bb.pts) ∨
               (∃ q ∈ p.queued, buf.pts < q.pts)))
    (hq : p.queued = none)
    (hdur : buf.duration ≠ CLOCK_NONE)
    (hseg : ¬(buf.pts ≥ p.segStop ∨ buf.duration + buf.pts < p.segStart))
    (ha : p.toRunning (max buf.pts p.segStart) = a)
    (hb : p.toRunning (if p.segStop ≠ CLOCK_NONE then
            min (buf.duration + buf.pts) p.segStop
          else buf.duration + buf.pts) = b)
    (hend : ¬(p.endTime ≠ CLOCK_NONE ∧ scaleTime r b < p.endTime))
    (hwin : scaleTime r b ≥ outS ∧ scaleTime r a < outE) :
    (fillQueuesPad r outS outE p (some buf)).1.startTime = scaleTime r a ∧
    (fillQueuesPad r outS outE p (some buf)).1.endTime = scaleTime r b ∧
    (fillQueuesPad r outS outE p (some buf)).1.buffer = some buf ∧
    (fillQueuesPad r outS outE p (some buf)).2 = .active ∧
    sinkClipTimes r p buf.pts buf.duration =
      (scaleTime r a, scaleTime r b) := by
  have hfill : fillQueuesPad r outS outE p (some buf) =
      ({ p with buffer := some buf
                startTime := scaleTime r a
                endTime := scaleTime r b
                queued := p.queued }, .active) := by
    have hpast' : ¬((∃ bb ∈ p.buffer, buf.pts < bb.pts) ∨
        (∃ q ∈ (none : Option GstBuffer), buf.pts < q.pts)) := by
      rw [← hq]; exact hpast
    simp only [fillQueuesPad, hq, if_neg hpts, if_neg hpast', if_neg hdur]
    simp only [fillQueuesBody, if_neg hseg, ha, hb, if_pos hr,
      if_neg hend, if_pos hwin]
    simp [hq]
  have hclip : sinkClipTimes r p buf.pts buf.duration =
      (scaleTime r a, scaleTime r b) := by
    simp only [sinkClipTimes, ha, hb, if_pos hr]
  rw [hfill]
  exact ⟨rfl, rfl, rfl, rfl, hclip⟩

unseal Rat.mul Rat.inv Rat.add Rat.sub in
/-- C1 counterexample: at output rate `2`, a buffer with running-time
interval `[2, 4]` over the identity pad segment is promoted with
`start_time = 4 = 2·2` by the queue filler (and the sink-clip step
computes the same scaled pair `(4, 8)`), not `2/2 = 1` as the claim's
`[a/r, b/r]` would require. -/
theorem C1_rate_scaling_cex :
    (fillQueuesPad 2 0 100 padBase (some ⟨2, 2⟩)).1.startTime = 4 ∧
    (fillQueuesPad 2 0 100 padBase (some ⟨2, 2⟩)).1.endTime = 8 ∧
    sinkClipTimes 2 padBase 2 2 = (4, 8) ∧
    ((fillQueuesPad 2 0 100 padBase (some ⟨2, 2⟩)).1.startTime : ℚ) ≠
      2 / 2 := by
  exact ⟨by decide, by decide, by decide, by decide⟩

unseal Rat.mul Rat.inv Rat.add Rat.sub in
/-- C1 witness: rate `2` doubles the interval `[2, 4]` to `[4, 8]` in
both the queue filler and the sink-clip computation. -/
theorem C1_rate_scaling_witness :
    (fillQueuesPad 2 0 100 padBase (some ⟨2, 2⟩)).1.startTime =
      scaleTime 2 2 ∧
    (fillQueuesPad 2 0 100 padBase (some ⟨2, 2⟩)).1.endTime =
      scaleTime 2 4 ∧
    (fillQueuesPad 2 0 100 padBase (some ⟨2, 2⟩)).1.buffer = some ⟨2, 2⟩ ∧
    (fillQueuesPad 2 0 100 padBase (some ⟨2, 2⟩)).2 = .active ∧
    sinkClipTimes 2 padBase 2 2 = (scaleTime 2 2, scaleTime 2 4) :=
  C1_rate_scaling 2 0 100 padBase ⟨2, 2⟩ 2 4 (by decide)
    (by decide) (by decide) (by decide) (by decide) (by decide)
    (by decide) (by decide) (by decide) (by decide)

/-! ## C10 / C3 — the QoS gate of the aggregate tick -/

/-- The `gst_basemixer_do_qos` reads only the QoS observation and the output
segment, so it is unaffected by the pad updates of the queue filler. -/
theorem do_qos_sinkpads (m : GstBasemixer) (pads : List GstBasemixerPad)
    (t : Nat) :
    gst_basemixer_do_qos { m with sinkpads := pads } t =
      gst_basemixer_do_qos m t := rfl

/-- C10: on an aggregate tick with no QoS observation yet
(`earliest_time` undefined) or with an undefined `out_start`, the QoS
check reports `-1` (non-positive), the frame is blended and emitted, and
`qos_processed` is incremented while `qos_dropped` is not. -/
theorem C10_no_drop_before_observation (m : GstBasemixer)
    (ins : List (Option GstBuffer))
    (hfmt : m.fmtKnown = true)
    (hfill : (gst_basemixer_fill_queues m.segRate (outStartOf m)
      (outEndOf m) m.sinkpads ins).2 = .ok)
    (hq : m.earliestTime = CLOCK_NONE ∨ outStartOf m = CLOCK_NONE) :
    gst_basemixer_do_qos m (outStartOf m) = -1 ∧
    (gst_basemixer_aggregate m ins).2.emitted =
      some (outStartOf m, outEndOf m - outStartOf m) ∧
    (gst_basemixer_aggregate m ins).2.qosMsg = none ∧
    (gst_basemixer_aggregate m ins).1.qosProcessed = m.qosProcessed + 1 ∧
    (gst_basemixer_aggregate m ins).1.qosDropped = m.qosDropped := by
  have hqos : gst_basemixer_do_qos m (outStartOf m) = -1 := by
    rcases hq with hq | hq
    · simp [gst_basemixer_do_qos, hq]
    · simp [gst_basemixer_do_qos, hq]
  refine ⟨hqos, ?_⟩
  unfold gst_basemixer_aggregate
  rw [if_neg (by simp [hfmt])]
  simp only []
  rw [hfill]
  simp only [do_qos_sinkpads, hqos]
  norm_num

/-- C3: on an aggregate tick where the QoS check yields positive jitter
(`earliest_time − running-time(out_start) > 0`), the mixer skips
blending (no buffer emitted), increments `qos_dropped`, posts a QoS
message carrying the jitter, the proportion and the processed/dropped
counters, and still advances `segment.position` to `out_end` and
increments `nframes`. -/
theorem C3_qos_late_frame_drop (m : GstBasemixer)
    (ins : List (Option GstBuffer))
    (hfmt : m.fmtKnown = true)
    (hfill : (gst_basemixer_fill_queues m.segRate (outStartOf m)
      (outEndOf m) m.sinkpads ins).2 = .ok)
    (hstart : outStartOf m ≠ CLOCK_NONE)
    (hobs : m.earliestTime ≠ CLOCK_NONE)
    (hj : 0 < clockDiff (m.srcToRunning (outStartOf m)) m.earliestTime) :
    gst_basemixer_do_qos m (outStartOf m) =
      clockDiff (m.srcToRunning (outStartOf m)) m.earliestTime ∧
    (gst_basemixer_aggregate m ins).2.emitted = none ∧
    (gst_basemixer_aggregate m ins).2.qosMsg =
      some ⟨clockDiff (m.srcToRunning (outStartOf m)) m.earliestTime,
            m.proportion, m.qosProcessed, m.qosDropped + 1⟩ ∧
    (gst_basemixer_aggregate m ins).1.qosDropped = m.qosDropped + 1 ∧
    (gst_basemixer_aggregate m ins).1.qosProcessed = m.qosProcessed ∧
    (gst_basemixer_aggregate m ins).1.segPosition = outEndOf m ∧
    (gst_basemixer_aggregate m ins).1.nframes = m.nframes + 1 := by
  have hqos : gst_basemixer_do_qos m (outStartOf m) =
      clockDiff (m.srcToRunning (outStartOf m)) m.earliestTime := by
    simp [gst_basemixer_do_qos, hstart, hobs]
  refine ⟨hqos, ?_⟩
  unfold gst_basemixer_aggregate
  rw [if_neg (by simp [hfmt])]
  simp only []
  rw [hfill]
  simp only [do_qos_sinkpads, hqos]
  rw [if_neg (by omega)]
  exact ⟨rfl, rfl, rfl, rfl, rfl, rfl⟩

/-- C10 witness: a tick of `mixTick` (no QoS observation yet) blends and
emits the frame `[0, 100 ms]`. -/
theorem C10_no_drop_before_observation_witness :
    gst_basemixer_do_qos mixTick (outStartOf mixTick) = -1 ∧
    (gst_basemixer_aggregate mixTick [none]).2.emitted =
      some (outStartOf mixTick, outEndOf mixTick - outStartOf mixTick) ∧
    (gst_basemixer_aggregate mixTick [none]).2.qosMsg = none ∧
    (gst_basemixer_aggregate mixTick [none]).1.qosProcessed =
      mixTick.qosProcessed + 1 ∧
    (gst_basemixer_aggregate mixTick [none]).1.qosDropped =
      mixTick.qosDropped :=
  C10_no_drop_before_observation mixTick [none] (by decide) (by decide)
    (Or.inl (by decide))

/-- C3 witness: with `earliest_time = 1 s` and `out_start = 0`, the tick
posts a QoS message with jitter `10^9`, drops the frame, and still
advances `position` and `nframes`. -/
theorem C3_qos_late_frame_drop_witness :
    gst_basemixer_do_qos mixLate (outStartOf mixLate) =
      clockDiff (mixLate.srcToRunning (outStartOf mixLate))
        mixLate.earliestTime ∧
    (gst_basemixer_aggregate mixLate [none]).2.emitted = none ∧
    (gst_basemixer_aggregate mixLate [none]).2.qosMsg =
      some ⟨clockDiff (mixLate.srcToRunning (outStartOf mixLate))
              mixLate.earliestTime,
            mixLate.proportion, mixLate.qosProcessed,
            mixLate.qosDropped + 1⟩ ∧
    (gst_basemixer_aggregate mixLate [none]).1.qosDropped =
      mixLate.qosDropped + 1 ∧
    (gst_basemixer_aggregate mixLate [none]).1.qosProcessed =
      mixLate.qosProcessed ∧
    (gst_basemixer_aggregate mixLate [none]).1.segPosition =
      outEndOf mixLate ∧
    (gst_basemixer_aggregate mixLate [none]).1.nframes =
      mixLate.nframes + 1 :=
  C3_qos_late_frame_drop mixLate [none] (by decide) (by decide)
    (by decide) (by decide) (by decide)

/-! ## C5 — alpha inputs vs. alpha-less elected output -/

/-- One election step ORs the pad's alpha flag into
`at_least_one_alpha` before any skip, so the flag accumulates over all
pads with a set `finfo`. -/
theorem convStep_alpha (ds : DownstreamCaps) (s : ConvSel)
    (pf : Option VFmt) :
    (convStep ds s pf).at_least_one_alpha =
      (s.at_least_one_alpha || (pf.map VFmt.alpha).getD false) := by
  cases pf with
  | none => simp [convStep]
  | some f =>
    simp only [convStep, Option.map_some, Option.getD_some]
    split_ifs <;> rfl

/-- The election loop's `at_least_one_alpha` is the OR of the alpha
flags of all pads with a set `finfo`. -/
theorem convFold_alpha (ds : DownstreamCaps) (l : List (Option VFmt)) :
    ∀ s : ConvSel,
    (l.foldl (convStep ds) s).at_least_one_alpha =
      (s.at_least_one_alpha ||
        l.any (fun o => (o.map VFmt.alpha).getD false)) := by
  induction l with
  | nil => intro s; simp
  | cons o l ih =>
    intro s
    simp only [List.foldl_cons, List.any_cons, ih, convStep_alpha,
      Bool.or_assoc]

/-- C5: if at least one input pad's declared format has an alpha channel
but the format elected for the output has none, `update_converters`
fails with the negotiation error. -/
theorem C5_alpha_negotiation_error (ds : DownstreamCaps)
    (padFmts : List (Option VFmt))
    (hne : ds.empty = false)
    (halpha : ∃ f : VFmt, some f ∈ padFmts ∧ f.alpha = true)
    (hnoalpha : (electedFmt ds padFmts).alpha = false) :
    gst_basemixer_update_converters ds padFmts = .alphaError := by
  have hal : (padFmts.foldl (convStep ds)
      ⟨false, false, VFmt.unknown, 0, []⟩).at_least_one_alpha = true := by
    rw [convFold_alpha]
    obtain ⟨f, hf, hfa⟩ := halpha
    simp only [Bool.false_or, List.any_eq_true]
    exact ⟨some f, hf, by simp [hfa]⟩
  unfold gst_basemixer_update_converters
  rw [if_neg (by simp [hne])]
  simp only []
  rw [if_pos]
  refine ⟨by exact_mod_cast hal, ?_⟩
  have : (if (padFmts.foldl (convStep ds)
        ⟨false, false, VFmt.unknown, 0, []⟩).best = VFmt.unknown then
      ds.fixated
    else (padFmts.foldl (convStep ds)
        ⟨false, false, VFmt.unknown, 0, []⟩).best) =
      electedFmt ds padFmts := rfl
  rw [this, hnoalpha]
  simp

/-- C5 witness: an AYUV input against I420-only downstream fails with
the "downstream can't support alpha" negotiation error. -/
theorem C5_alpha_negotiation_error_witness :
    gst_basemixer_update_converters dsI420 [some ⟨1, true⟩] = .alphaError :=
  C5_alpha_negotiation_error dsI420 [some ⟨1, true⟩] rfl
    ⟨⟨1, true⟩, by decide, rfl⟩ (by decide)

/-! ## C9 — z-order sorting and compositing order -/

/-- Membership in a `g_slist_insert_sorted` result. -/
theorem mem_insertSorted {x p : ZPad} {l : List ZPad} :
    x ∈ insertSorted p l ↔ x = p ∨ x ∈ l := by
  induction l with
  | nil => simp [insertSorted]
  | cons q rest ih =>
    simp only [insertSorted]
    split_ifs
    · simp only [List.mem_cons, ih]
      tauto
    · simp only [List.mem_cons]

/-- The `g_slist_insert_sorted` preserves the ascending z-order sort. -/
theorem insertSorted_pairwise (p : ZPad) (l : List ZPad)
    (h : l.Pairwise zorderLE) : (insertSorted p l).Pairwise zorderLE := by
  induction l with
  | nil => simp [insertSorted, List.pairwise_singleton]
  | cons q rest ih =>
    rw [List.pairwise_cons] at h
    obtain ⟨hq, hrest⟩ := h
    simp only [insertSorted]
    split_ifs with hgt
    · rw [List.pairwise_cons]
      refine ⟨?_, ih hrest⟩
      intro x hx
      rcases mem_insertSorted.mp hx with rfl | hx
      · exact Nat.le_of_lt hgt
      · exact hq x hx
    · rw [List.pairwise_cons]
      refine ⟨?_, List.pairwise_cons.mpr ⟨hq, hrest⟩⟩
      intro x hx
      rcases List.mem_cons.mp hx with rfl | hx
      · exact Nat.le_of_not_lt hgt
      · exact Nat.le_trans (Nat.le_of_not_lt hgt) (hq x hx)

/-- C9: after every z-order property write (`g_slist_sort`), after every
pad request (`g_slist_insert_sorted`) and after every pad release
(`g_slist_remove`), the pad list is sorted ascending by z-order; and the
compositing order of `gst_videomixer2_mix_frames` preserves list order,
so among contributing pads a strictly smaller z-order is composited
strictly earlier. -/
theorem C9_zorder_invariant :
    (∀ (pads : List ZPad) (t z : Nat),
      (gst_basemixer_pad_set_zorder pads t z).Pairwise zorderLE) ∧
    (∀ (pads : List ZPad) (i : Nat) (c : Bool), pads.Pairwise zorderLE →
      (gst_basemixer_request_new_pad pads i c).Pairwise zorderLE) ∧
    (∀ (pads : List ZPad) (t : Nat), pads.Pairwise zorderLE →
      (gst_basemixer_release_pad pads t).Pairwise zorderLE) ∧
    (∀ pads : List ZPad, pads.Pairwise zorderLE →
      ∀ i j : Fin (gst_videomixer2_mix_frames_order pads).length,
        ((gst_videomixer2_mix_frames_order pads).get i).zorder <
          ((gst_videomixer2_mix_frames_order pads).get j).zorder →
        i < j) := by
  refine ⟨?_, ?_, ?_, ?_⟩
  · intro pads t z
    have h : (List.mergeSort
        (pads.map (fun p => if p.id = t then { p with zorder := z } else p))
        zle).Pairwise (fun a b => zle a b = true) := by
      apply List.sorted_mergeSort
      · intro a b c h1 h2
        simp only [zle, decide_eq_true_eq] at *
        omega
      · intro a b
        simp only [zle, Bool.or_eq_true, decide_eq_true_eq]
        omega
    exact h.imp (fun hab => by
      simpa [zle, decide_eq_true_eq] using hab)
  · intro pads i c h
    exact insertSorted_pairwise _ pads h
  · intro pads t h
    exact h.sublist (List.eraseP_sublist pads)
  · intro pads h i j hlt
    by_contra hij
    have hji : (j : Nat) ≤ (i : Nat) := by
      simpa using Fin.not_lt.mp hij
    have hsorted : (gst_videomixer2_mix_frames_order pads).Pairwise
        zorderLE := h.filter _
    rcases Nat.lt_or_ge (j : Nat) (i : Nat) with hj | hj
    · have := (List.pairwise_iff_get.mp hsorted) j i (by
        exact Fin.mk_lt_mk.mpr hj)
      exact absurd hlt (by simpa [zorderLE] using Nat.not_lt.mpr this)
    · have heq : i = j := Fin.ext (le_antisymm hj hji)
      subst heq
      exact lt_irrefl _ hlt

/-- C9 witness: the maintained sort after a z-order write, after a pad
request and a release on `demoPads`, and the compositing-order
consequence at concrete indices. -/
theorem C9_zorder_invariant_witness :
    (gst_basemixer_pad_set_zorder demoPads 10 5).Pairwise zorderLE ∧
    (gst_basemixer_request_new_pad demoPads 12 true).Pairwise zorderLE ∧
    (gst_basemixer_release_pad demoPads 10).Pairwise zorderLE ∧
    ((⟨0, by decide⟩ : Fin (gst_videomixer2_mix_frames_order
        demoPads).length) < ⟨1, by decide⟩) :=
  ⟨C9_zorder_invariant.1 demoPads 10 5,
   C9_zorder_invariant.2.1 demoPads 12 true (by decide),
   C9_zorder_invariant.2.2.1 demoPads 10 (by decide),
   C9_zorder_invariant.2.2.2 demoPads (by decide) ⟨0, by decide⟩
     ⟨1, by decide⟩ (by decide)⟩

/-! ## C4 — width/height/framerate selection of `update_src_caps` -/

/-- The `if a < b then b else a` is `max`. -/
theorem ite_lt_max {α : Type} [LinearOrder α] (a b : α) :
    (if a < b then b else a) = max a b := by
  rcases lt_or_ge a b with h | h
  · simp [h, max_eq_right h.le]
  · simp [not_lt.mpr h, max_eq_left h]

/-- A fold of `max` dominates its initial value. -/
theorem foldl_max_le_init {α : Type} [LinearOrder α] (l : List α) (a : α) :
    a ≤ l.foldl max a := by
  induction l generalizing a with
  | nil => exact le_refl a
  | cons x l ih => exact le_trans (le_max_left a x) (ih _)

/-- A fold of `max` dominates every list element. -/
theorem le_foldl_max {α : Type} [LinearOrder α] (l : List α) (a : α)
    {x : α} (hx : x ∈ l) : x ≤ l.foldl max a := by
  induction l generalizing a with
  | nil => cases hx
  | cons y l ih =>
    rcases List.mem_cons.mp hx with rfl | hx
    · exact le_trans (le_max_right a x) (foldl_max_le_init l _)
    · exact ih _ hx

/-- A fold of `max` is the initial value or a list element. -/
theorem foldl_max_cases {α : Type} [LinearOrder α] (l : List α) (a : α) :
    l.foldl max a = a ∨ l.foldl max a ∈ l := by
  induction l generalizing a with
  | nil => exact Or.inl rfl
  | cons x l ih =>
    rw [List.foldl_cons]
    rcases ih (max a x) with h | h
    · rw [h]
      rcases max_cases a x with ⟨h2, _⟩ | ⟨h2, _⟩
      · exact Or.inl h2
      · right
        rw [h2]
        exact List.mem_cons_self x l
    · exact Or.inr (List.mem_cons_of_mem x h)

/-- The `best_width` after one selection step. -/
theorem selStep_best_width (b : BestSel) (p : PadCapsInfo) :
    (selStep b p).best_width =
      if p.width = 0 ∨ p.height = 0 then b.best_width
      else max b.best_width p.width := by
  by_cases h : p.width = 0 ∨ p.height = 0
  · simp [selStep, h]
  · simp only [selStep, if_neg h, apply_ite BestSel.best_width, ite_self]
    exact ite_lt_max _ _

/-- The `best_height` after one selection step. -/
theorem selStep_best_height (b : BestSel) (p : PadCapsInfo) :
    (selStep b p).best_height =
      if p.width = 0 ∨ p.height = 0 then b.best_height
      else max b.best_height p.height := by
  by_cases h : p.width = 0 ∨ p.height = 0
  · simp [selStep, h]
  · simp only [selStep, if_neg h, apply_ite BestSel.best_height, ite_self]
    exact ite_lt_max _ _

/-- The framerate triple after one selection step. -/
theorem selStep_fps (b : BestSel) (p : PadCapsInfo) :
    ((selStep b p).best_fps, (selStep b p).best_fps_n,
     (selStep b p).best_fps_d) =
      if p.width = 0 ∨ p.height = 0 then
        (b.best_fps, b.best_fps_n, b.best_fps_d)
      else fpsStep (b.best_fps, b.best_fps_n, b.best_fps_d) p := by
  by_cases h : p.width = 0 ∨ p.height = 0
  · simp [selStep, h]
  · simp only [selStep, if_neg h, fpsStep]
    split_ifs <;> rfl

/-- A zero-sized pad is skipped by `capsContrib`. -/
theorem capsContrib_cons_skip {p : PadCapsInfo} (l : List PadCapsInfo)
    (h : p.width = 0 ∨ p.height = 0) :
    capsContrib (p :: l) = capsContrib l := by
  simp only [capsContrib, List.filter_cons]
  rw [if_neg]
  simp only [decide_eq_true_eq]
  exact fun hh => hh h

/-- A pad with nonzero geometry is kept by `capsContrib`. -/
theorem capsContrib_cons_keep {p : PadCapsInfo} (l : List PadCapsInfo)
    (h : ¬(p.width = 0 ∨ p.height = 0)) :
    capsContrib (p :: l) = p :: capsContrib l := by
  simp only [capsContrib, List.filter_cons]
  rw [if_pos]
  simp only [decide_eq_true_eq]
  exact h

/-- The selection fold computes `best_width` as a `max`-fold over the
contributing pads' widths. -/
theorem foldl_selStep_width (l : List PadCapsInfo) (b : BestSel) :
    (l.foldl selStep b).best_width =
      ((capsContrib l).map (fun p => p.width)).foldl max b.best_width := by
  induction l generalizing b with
  | nil => rfl
  | cons p l ih =>
    by_cases h : p.width = 0 ∨ p.height = 0
    · rw [List.foldl_cons, ih, selStep_best_width, if_pos h,
        capsContrib_cons_skip l h]
    · rw [List.foldl_cons, ih, selStep_best_width, if_neg h,
        capsContrib_cons_keep l h, List.map_cons, List.foldl_cons]

/-- The selection fold computes `best_height` as a `max`-fold over the
contributing pads' heights. -/
theorem foldl_selStep_height (l : List PadCapsInfo) (b : BestSel) :
    (l.foldl selStep b).best_height =
      ((capsContrib l).map (fun p => p.height)).foldl max b.best_height := by
  induction l generalizing b with
  | nil => rfl
  | cons p l ih =>
    by_cases h : p.width = 0 ∨ p.height = 0
    · rw [List.foldl_cons, ih, selStep_best_height, if_pos h,
        capsContrib_cons_skip l h]
    · rw [List.foldl_cons, ih, selStep_best_height, if_neg h,
        capsContrib_cons_keep l h, List.map_cons, List.foldl_cons]

/-- The selection fold computes the framerate triple as an `fpsStep`
fold over the contributing pads. -/
theorem foldl_selStep_fps (l : List PadCapsInfo) (b : BestSel) :
    ((l.foldl selStep b).best_fps, (l.foldl selStep b).best_fps_n,
     (l.foldl selStep b).best_fps_d) =
      (capsContrib l).foldl fpsStep
        (b.best_fps, b.best_fps_n, b.best_fps_d) := by
  induction l generalizing b with
  | nil => rfl
  | cons p l ih =>
    have hs := selStep_fps b p
    by_cases h : p.width = 0 ∨ p.height = 0
    · rw [if_pos h] at hs
      rw [List.foldl_cons, ih, hs, capsContrib_cons_skip l h]
    · rw [if_neg h] at hs
      rw [List.foldl_cons, ih, hs, capsContrib_cons_keep l h,
        List.foldl_cons]

/-- The first component of the `fpsStep` fold is a `max`-fold of the
pads' framerates. -/
theorem fpsStep_fst (l : List PadCapsInfo) (t : ℚ × Int × Int) :
    (l.foldl fpsStep t).1 = (l.map fpsOf).foldl max t.1 := by
  induction l generalizing t with
  | nil => rfl
  | cons p l ih =>
    rw [List.foldl_cons, ih, List.map_cons, List.foldl_cons]
    congr 1
    unfold fpsStep
    split_ifs with h
    · simp [max_eq_right h.le]
    · simp [max_eq_left (not_lt.mp h)]

/-- The `fpsStep` fold is the initial triple or the triple of some
list element. -/
theorem fpsStep_cases (l : List PadCapsInfo) (t : ℚ × Int × Int) :
    l.foldl fpsStep t = t ∨
      ∃ p ∈ l, l.foldl fpsStep t = (fpsOf p, p.fpsN, p.fpsD) := by
  induction l generalizing t with
  | nil => exact Or.inl rfl
  | cons p l ih =>
    rw [List.foldl_cons]
    rcases ih (fpsStep t p) with h | ⟨q, hq, h⟩
    · rw [h]
      unfold fpsStep
      split_ifs with hc
      · exact Or.inr ⟨p, List.mem_cons_self p l, rfl⟩
      · exact Or.inl rfl
    · exact Or.inr ⟨q, List.mem_cons_of_mem p hq, h⟩

/-- A pad's framerate value is nonnegative when its fields are. -/
theorem fpsOf_nonneg {p : PadCapsInfo} (hn : 0 ≤ p.fpsN)
    (hd : 0 ≤ p.fpsD) : 0 ≤ fpsOf p := by
  unfold fpsOf
  split_ifs
  · exact le_refl 0
  · have h1 : (0:ℚ) ≤ (p.fpsN : ℚ) := by exact_mod_cast hn
    have h2 : (0:ℚ) ≤ (p.fpsD : ℚ) := by exact_mod_cast hd
    exact div_nonneg h1 h2

/-- Membership in `capsContrib` decodes to membership plus the nonzero
geometry condition. -/
theorem mem_capsContrib {p : PadCapsInfo} {pads : List PadCapsInfo}
    (hp : p ∈ capsContrib pads) :
    p ∈ pads ∧ p.width ≠ 0 ∧ p.height ≠ 0 := by
  have h := List.mem_filter.mp hp
  refine ⟨h.1, ?_⟩
  have h2 := of_decide_eq_true h.2
  tauto

/-- C4: `update_src_caps` selects `best_width`/`best_height` as the
maxima of the declared pad widths/heights over all sink pads, skipping
every pad with zero width or height, and `best_fps` as the maximum pad
framerate over those pads; when no such pad has a positive framerate,
the output framerate defaults to `25/1`. -/
theorem C4_update_src_caps_selection (pads : List PadCapsInfo)
    (hw : ∀ p ∈ pads, 0 ≤ p.width ∧ 0 ≤ p.height)
    (hfps : ∀ p ∈ pads, 0 ≤ p.fpsN ∧ 0 ≤ p.fpsD) :
    (∀ p ∈ capsContrib pads,
      p.width ≤ (gst_basemixer_update_src_caps_sel pads).best_width ∧
      p.height ≤ (gst_basemixer_update_src_caps_sel pads).best_height) ∧
    (capsContrib pads ≠ [] →
      (∃ p ∈ capsContrib pads,
        (gst_basemixer_update_src_caps_sel pads).best_width = p.width) ∧
      (∃ p ∈ capsContrib pads,
        (gst_basemixer_update_src_caps_sel pads).best_height = p.height)) ∧
    ((∃ p ∈ capsContrib pads, 0 < fpsOf p) →
      (∀ p ∈ capsContrib pads, fpsOf p ≤
        ((gst_basemixer_update_src_caps_sel pads).best_fps_n : ℚ) /
          ((gst_basemixer_update_src_caps_sel pads).best_fps_d : ℚ)) ∧
      (∃ p ∈ capsContrib pads,
        ((gst_basemixer_update_src_caps_sel pads).best_fps_n : ℚ) /
          ((gst_basemixer_update_src_caps_sel pads).best_fps_d : ℚ) =
          fpsOf p)) ∧
    ((∀ p ∈ capsContrib pads, fpsOf p ≤ 0) →
      (gst_basemixer_update_src_caps_sel pads).best_fps_n = 25 ∧
      (gst_basemixer_update_src_caps_sel pads).best_fps_d = 1) := by
  have hwchar := foldl_selStep_width pads ⟨-1, -1, -1, -1, -1⟩
  have hhchar := foldl_selStep_height pads ⟨-1, -1, -1, -1, -1⟩
  have hfchar := foldl_selStep_fps pads ⟨-1, -1, -1, -1, -1⟩
  set sel0 := pads.foldl selStep ⟨-1, -1, -1, -1, -1⟩ with hsel0
  have hW : (gst_basemixer_update_src_caps_sel pads).best_width =
      sel0.best_width := by
    unfold gst_basemixer_update_src_caps_sel
    simp only []
    rw [← hsel0]
    split_ifs <;> rfl
  have hH : (gst_basemixer_update_src_caps_sel pads).best_height =
      sel0.best_height := by
    unfold gst_basemixer_update_src_caps_sel
    simp only []
    rw [← hsel0]
    split_ifs <;> rfl
  refine ⟨?_, ?_, ?_, ?_⟩
  · intro p hp
    constructor
    · rw [hW, hwchar]
      exact le_foldl_max _ _ (List.mem_map_of_mem _ hp)
    · rw [hH, hhchar]
      exact le_foldl_max _ _ (List.mem_map_of_mem _ hp)
  · intro hne
    obtain ⟨p0, hp0⟩ := List.exists_mem_of_ne_nil _ hne
    have hp0w : (1:Int) ≤ p0.width := by
      obtain ⟨hmem, hw0, _⟩ := mem_capsContrib hp0
      have := (hw p0 hmem).1
      omega
    have hp0h : (1:Int) ≤ p0.height := by
      obtain ⟨hmem, _, hh0⟩ := mem_capsContrib hp0
      have := (hw p0 hmem).2
      omega
    constructor
    · rcases foldl_max_cases ((capsContrib pads).map (fun p => p.width))
        (-1 : Int) with h | h
      · exfalso
        have h1 : p0.width ≤ ((capsContrib pads).map
            (fun p => p.width)).foldl max (-1) :=
          le_foldl_max _ _ (List.mem_map_of_mem _ hp0)
        rw [h] at h1
        omega
      · obtain ⟨q, hq, hqe⟩ := List.mem_map.mp h
        refine ⟨q, hq, ?_⟩
        rw [hW, hwchar, ← hqe]
    · rcases foldl_max_cases ((capsContrib pads).map (fun p => p.height))
        (-1 : Int) with h | h
      · exfalso
        have h1 : p0.height ≤ ((capsContrib pads).map
            (fun p => p.height)).foldl max (-1) :=
          le_foldl_max _ _ (List.mem_map_of_mem _ hp0)
        rw [h] at h1
        omega
      · obtain ⟨q, hq, hqe⟩ := List.mem_map.mp h
        refine ⟨q, hq, ?_⟩
        rw [hH, hhchar, ← hqe]
  · rintro ⟨q0, hq0, hq0pos⟩
    have hdom : ∀ p ∈ capsContrib pads, fpsOf p ≤
        ((capsContrib pads).foldl fpsStep
          ((-1 : ℚ), (-1 : Int), (-1 : Int))).1 := by
      intro p hp
      rw [fpsStep_fst]
      exact le_foldl_max _ _ (List.mem_map_of_mem _ hp)
    have hpos : 0 < ((capsContrib pads).foldl fpsStep
        ((-1 : ℚ), (-1 : Int), (-1 : Int))).1 :=
      lt_of_lt_of_le hq0pos (hdom q0 hq0)
    rcases fpsStep_cases (capsContrib pads)
        ((-1 : ℚ), (-1 : Int), (-1 : Int)) with hcase | ⟨q, hq, hcase⟩
    · rw [hcase] at hpos
      norm_num at hpos
    · have hfn : sel0.best_fps = fpsOf q ∧ sel0.best_fps_n = q.fpsN ∧
          sel0.best_fps_d = q.fpsD := by
        have := hfchar.trans hcase
        exact ⟨congrArg Prod.fst this,
          congrArg (fun x => x.2.1) this, congrArg (fun x => x.2.2) this⟩
      have hqfps : 0 < fpsOf q := by
        rw [hcase] at hpos
        exact hpos
      have hqd : q.fpsD ≠ 0 := by
        intro h0
        rw [fpsOf, if_pos h0] at hqfps
        exact lt_irrefl 0 hqfps
      have hqdpos : 0 < q.fpsD :=
        lt_of_le_of_ne (hfps q (mem_capsContrib hq).1).2 (Ne.symm hqd)
      have hqval : fpsOf q = (q.fpsN : ℚ) / (q.fpsD : ℚ) := by
        rw [fpsOf, if_neg hqd]
      have hqnpos : 0 < q.fpsN := by
        by_contra hn
        push_neg at hn
        have h1 : (q.fpsN : ℚ) ≤ 0 := by exact_mod_cast hn
        have h2 : (0:ℚ) < (q.fpsD : ℚ) := by exact_mod_cast hqdpos
        have h3 : fpsOf q ≤ 0 := by
          rw [hqval]
          exact div_nonpos_of_nonpos_of_nonneg h1 h2.le
        linarith
      have hsel : gst_basemixer_update_src_caps_sel pads = sel0 := by
        unfold gst_basemixer_update_src_caps_sel
        simp only []
        rw [← hsel0, if_neg]
        push_neg
        refine ⟨by rw [hfn.2.1]; omega, by rw [hfn.2.2]; omega, ?_⟩
        rw [hfn.1]
        exact ne_of_gt hqfps
      have hfold1 : ((capsContrib pads).foldl fpsStep
          ((-1 : ℚ), (-1 : Int), (-1 : Int))).1 = fpsOf q := by
        rw [hcase]
      constructor
      · intro p hp
        rw [hsel, hfn.2.1, hfn.2.2, ← hqval]
        calc fpsOf p ≤ _ := hdom p hp
          _ = fpsOf q := hfold1
      · refine ⟨q, hq, ?_⟩
        rw [hsel, hfn.2.1, hfn.2.2, ← hqval]
  · intro hall
    rcases fpsStep_cases (capsContrib pads)
        ((-1 : ℚ), (-1 : Int), (-1 : Int)) with hcase | ⟨q, hq, hcase⟩
    · have hfn : sel0.best_fps_n = -1 :=
        congrArg (fun x => x.2.1) (hfchar.trans hcase)
      have hsel : gst_basemixer_update_src_caps_sel pads =
          { sel0 with best_fps := 25, best_fps_n := 25, best_fps_d := 1 } := by
        unfold gst_basemixer_update_src_caps_sel
        simp only []
        rw [← hsel0, if_pos (Or.inl (by rw [hfn]; norm_num))]
      rw [hsel]
      exact ⟨rfl, rfl⟩
    · have hmem := mem_capsContrib hq
      have hfq : fpsOf q = 0 :=
        le_antisymm (hall q hq)
          (fpsOf_nonneg (hfps q hmem.1).1 (hfps q hmem.1).2)
      have hbf : sel0.best_fps = 0 := by
        have h1 : sel0.best_fps = fpsOf q :=
          congrArg Prod.fst (hfchar.trans hcase)
        rw [h1, hfq]
      have hsel : gst_basemixer_update_src_caps_sel pads =
          { sel0 with best_fps := 25, best_fps_n := 25, best_fps_d := 1 } := by
        unfold gst_basemixer_update_src_caps_sel
        simp only []
        rw [← hsel0, if_pos (Or.inr (Or.inr hbf))]
      rw [hsel]
      exact ⟨rfl, rfl⟩

/-- The spec's scenario 1 inputs: 320×240@5 and 100×100@10. -/
def capsPads : List PadCapsInfo := [⟨320, 240, 5, 1⟩, ⟨100, 100, 10, 1⟩]

/-- C4 witness: on `capsPads` the selection obeys the max/default
characterization (yielding 320×240@10). -/
theorem C4_update_src_caps_selection_witness :
    (∀ p ∈ capsContrib capsPads,
      p.width ≤ (gst_basemixer_update_src_caps_sel capsPads).best_width ∧
      p.height ≤ (gst_basemixer_update_src_caps_sel capsPads).best_height) ∧
    (capsContrib capsPads ≠ [] →
      (∃ p ∈ capsContrib capsPads,
        (gst_basemixer_update_src_caps_sel capsPads).best_width =
          p.width) ∧
      (∃ p ∈ capsContrib capsPads,
        (gst_basemixer_update_src_caps_sel capsPads).best_height =
          p.height)) ∧
    ((∃ p ∈ capsContrib capsPads, 0 < fpsOf p) →
      (∀ p ∈ capsContrib capsPads, fpsOf p ≤
        ((gst_basemixer_update_src_caps_sel capsPads).best_fps_n : ℚ) /
          ((gst_basemixer_update_src_caps_sel capsPads).best_fps_d : ℚ)) ∧
      (∃ p ∈ capsContrib capsPads,
        ((gst_basemixer_update_src_caps_sel capsPads).best_fps_n : ℚ) /
          ((gst_basemixer_update_src_caps_sel capsPads).best_fps_d : ℚ) =
          fpsOf p)) ∧
    ((∀ p ∈ capsContrib capsPads, fpsOf p ≤ 0) →
      (gst_basemixer_update_src_caps_sel capsPads).best_fps_n = 25 ∧
      (gst_basemixer_update_src_caps_sel capsPads).best_fps_d = 1) :=
  C4_update_src_caps_selection capsPads (by decide) (by decide)

/-! ## C2 — monotonicity of emitted timestamps and `segment.position` -/

/-- The `scale_round` is monotone in the scaled value. -/
theorem scale_round_mono (N D : Nat) {j k : Nat} (h : j ≤ k) :
    scale_round j N D ≤ scale_round k N D := by
  unfold scale_round
  exact Nat.div_le_div_right (by
    have := Nat.mul_le_mul_right N h
    omega)

/-- With a frame period of at least one time unit (`D ≤ N`), the
cadence strictly increases with the frame counter. -/
theorem scale_round_succ_lt (N D : Nat) (hD : 0 < D) (hND : D ≤ N)
    (k : Nat) : scale_round k N D < scale_round (k + 1) N D := by
  unfold scale_round
  have h1 : (k + 1) * N + D / 2 = (k * N + D / 2) + N := by ring
  rw [h1]
  calc (k * N + D / 2) / D < ((k * N + D / 2) + D) / D := by
        rw [Nat.add_div_right _ hD]
        omega
    _ ≤ ((k * N + D / 2) + N) / D := Nat.div_le_div_right (by omega)

/-- Without a stop clamp, `output_end_time` is the cadence at
`nframes + 1`. -/
theorem outEndOf_eq_cadence (m : GstBasemixer)
    (hstop : m.segStop = CLOCK_NONE) :
    outEndOf m = cadence m (m.nframes + 1) := by
  unfold outEndOf cadence
  rw [if_neg (by simp [hstop])]

/-- Under the cadence invariant, each tick's `output_start_time` lies
strictly below its `output_end_time`. -/
theorem outStart_lt_outEnd (m : GstBasemixer)
    (hfpsN : 0 < m.fpsN) (hfpsND : m.fpsN ≤ GST_SECOND * m.fpsD)
    (hstop : m.segStop = CLOCK_NONE) (hInv : CadenceInv m)
    (hbound : cadence m (m.nframes + 1) < CLOCK_NONE) :
    outStartOf m < outEndOf m := by
  rw [outEndOf_eq_cadence m hstop]
  have hsucc := scale_round_succ_lt (GST_SECOND * m.fpsD) m.fpsN hfpsN
    hfpsND m.nframes
  rcases hInv with hpos | hpos
  · rw [outStartOf, if_pos hpos]
    unfold cadence
    have : 0 ≤ scale_round m.nframes (GST_SECOND * m.fpsD) m.fpsN :=
      Nat.zero_le _
    omega
  · have hne : m.segPosition ≠ CLOCK_NONE := by
      rw [hpos]
      have : cadence m m.nframes ≤ cadence m (m.nframes + 1) := by
        unfold cadence
        have := scale_round_mono (GST_SECOND * m.fpsD) m.fpsN
          (Nat.le_succ m.nframes)
        omega
      omega
    rw [outStartOf, if_neg hne, hpos]
    unfold cadence
    omega

/-- Shape of one aggregate tick: either nothing is emitted and the
timing state is untouched (not negotiated / need-more / EOS / error), or
the QoS gate blends and emits `(out_start, out_end − out_start)`, or it
drops; in the last two cases `segment.position` becomes `out_end` and
`nframes` increments. -/
theorem aggregate_shape (m : GstBasemixer) (ins : List (Option GstBuffer)) :
    (∃ pads, (gst_basemixer_aggregate m ins).1 =
        { m with sinkpads := pads } ∧
      (gst_basemixer_aggregate m ins).2.emitted = none) ∨
    (∃ pads, (gst_basemixer_aggregate m ins).1 =
        { m with
          sinkpads := pads
          segPosition := outEndOf m
          nframes := m.nframes + 1
          qosProcessed := m.qosProcessed + 1 } ∧
      (gst_basemixer_aggregate m ins).2.emitted =
        some (outStartOf m, outEndOf m - outStartOf m)) ∨
    (∃ pads, (gst_basemixer_aggregate m ins).1 =
        { m with
          sinkpads := pads
          segPosition := outEndOf m
          nframes := m.nframes + 1
          qosDropped := m.qosDropped + 1 } ∧
      (gst_basemixer_aggregate m ins).2.emitted = none) := by
  unfold gst_basemixer_aggregate
  split
  · exact Or.inl ⟨m.sinkpads, rfl, rfl⟩
  · simp only []
    split
    · exact Or.inl ⟨_, rfl, rfl⟩
    · exact Or.inl ⟨_, rfl, rfl⟩
    · exact Or.inl ⟨_, rfl, rfl⟩
    · split
      · exact Or.inr (Or.inl ⟨_, rfl, rfl⟩)
      · exact Or.inr (Or.inr ⟨_, rfl, rfl⟩)

/-- One aggregate tick preserves the timing configuration, preserves the
cadence invariant, never moves `output_start_time` backwards, never
decreases a defined `segment.position`, and stamps any emitted buffer
with the tick's `out_start` before advancing the position strictly past
it. -/
theorem aggregate_step (m : GstBasemixer) (ins : List (Option GstBuffer))
    (hfpsN : 0 < m.fpsN) (hfpsND : m.fpsN ≤ GST_SECOND * m.fpsD)
    (hstop : m.segStop = CLOCK_NONE) (hInv : CadenceInv m)
    (hbound : cadence m (m.nframes + 1) < CLOCK_NONE) :
    (gst_basemixer_aggregate m ins).1.segStart = m.segStart ∧
    (gst_basemixer_aggregate m ins).1.segStop = m.segStop ∧
    (gst_basemixer_aggregate m ins).1.ts_offset = m.ts_offset ∧
    (gst_basemixer_aggregate m ins).1.fpsN = m.fpsN ∧
    (gst_basemixer_aggregate m ins).1.fpsD = m.fpsD ∧
    (m.nframes ≤ (gst_basemixer_aggregate m ins).1.nframes ∧
      (gst_basemixer_aggregate m ins).1.nframes ≤ m.nframes + 1) ∧
    CadenceInv (gst_basemixer_aggregate m ins).1 ∧
    outStartOf m ≤ outStartOf (gst_basemixer_aggregate m ins).1 ∧
    (m.segPosition ≠ CLOCK_NONE →
      (gst_basemixer_aggregate m ins).1.segPosition ≠ CLOCK_NONE ∧
      m.segPosition ≤ (gst_basemixer_aggregate m ins).1.segPosition) ∧
    (∀ e, (gst_basemixer_aggregate m ins).2.emitted = some e →
      e.1 = outStartOf m ∧
      (gst_basemixer_aggregate m ins).1.segPosition = outEndOf m ∧
      outStartOf m < outEndOf m ∧
      outStartOf m < outStartOf (gst_basemixer_aggregate m ins).1) := by
  have hlt := outStart_lt_outEnd m hfpsN hfpsND hstop hInv hbound
  have hEndNe : outEndOf m ≠ CLOCK_NONE := by
    rw [outEndOf_eq_cadence m hstop]
    omega
  have hposle : m.segPosition ≠ CLOCK_NONE → m.segPosition ≤ outEndOf m := by
    intro hne
    have : outStartOf m = m.segPosition := by
      rw [outStartOf, if_neg hne]
    omega
  rcases aggregate_shape m ins with ⟨pads, h1, h2⟩ | ⟨pads, h1, h2⟩ |
      ⟨pads, h1, h2⟩
  · rw [h1, h2]
    refine ⟨rfl, rfl, rfl, rfl, rfl, ⟨le_refl _, Nat.le_succ _⟩, hInv, ?_,
      fun hne => ⟨hne, le_refl _⟩, fun e he => by cases he⟩
    exact le_refl _
  · rw [h1, h2]
    have hInv' : CadenceInv { m with
        sinkpads := pads
        segPosition := outEndOf m
        nframes := m.nframes + 1
        qosProcessed := m.qosProcessed + 1 } := by
      right
      show outEndOf m = cadence m (m.nframes + 1)
      exact outEndOf_eq_cadence m hstop
    have houts : outStartOf { m with
        sinkpads := pads
        segPosition := outEndOf m
        nframes := m.nframes + 1
        qosProcessed := m.qosProcessed + 1 } = outEndOf m := by
      show (if outEndOf m = CLOCK_NONE then m.segStart else outEndOf m) = _
      rw [if_neg hEndNe]
    refine ⟨rfl, rfl, rfl, rfl, rfl, ⟨Nat.le_succ _, le_refl _⟩, hInv', ?_,
      fun hne => ⟨hEndNe, hposle hne⟩, ?_⟩
    · rw [houts]
      exact hlt.le
    · intro e he
      injection he with he
      subst he
      exact ⟨rfl, rfl, hlt, by rw [houts]; exact hlt⟩
  · rw [h1, h2]
    have hInv' : CadenceInv { m with
        sinkpads := pads
        segPosition := outEndOf m
        nframes := m.nframes + 1
        qosDropped := m.qosDropped + 1 } := by
      right
      show outEndOf m = cadence m (m.nframes + 1)
      exact outEndOf_eq_cadence m hstop
    have houts : outStartOf { m with
        sinkpads := pads
        segPosition := outEndOf m
        nframes := m.nframes + 1
        qosDropped := m.qosDropped + 1 } = outEndOf m := by
      show (if outEndOf m = CLOCK_NONE then m.segStart else outEndOf m) = _
      rw [if_neg hEndNe]
    refine ⟨rfl, rfl, rfl, rfl, rfl, ⟨Nat.le_succ _, le_refl _⟩, hInv', ?_,
      fun hne => ⟨hEndNe, hposle hne⟩, fun e he => by cases he⟩
    rw [houts]
    exact hlt.le

/-- Over a sequence of aggregate ticks without flush or seek, the
emitted timestamps form a strictly increasing chain, every emitted
timestamp dominates the initial `output_start_time`, and
`output_start_time` and a defined `segment.position` never decrease. -/
theorem runTicks_spec (inputs : List (List (Option GstBuffer))) :
    ∀ m : GstBasemixer,
    0 < m.fpsN → m.fpsN ≤ GST_SECOND * m.fpsD →
    m.segStop = CLOCK_NONE → CadenceInv m →
    cadence m (m.nframes + inputs.length + 1) < CLOCK_NONE →
    List.Chain' (fun a b : Nat × Nat => a.1 < b.1) (runTicks m inputs).2 ∧
    (∀ e ∈ (runTicks m inputs).2, outStartOf m ≤ e.1) ∧
    outStartOf m ≤ outStartOf (runTicks m inputs).1 ∧
    (m.segPosition ≠ CLOCK_NONE →
      (runTicks m inputs).1.segPosition ≠ CLOCK_NONE ∧
      m.segPosition ≤ (runTicks m inputs).1.segPosition) := by
  induction inputs with
  | nil =>
    intro m _ _ _ _ _
    refine ⟨List.chain'_nil, ?_, le_refl _, fun h => ⟨h, le_refl _⟩⟩
    intro e he
    simp [runTicks] at he
  | cons ins rest ih =>
    intro m h1 h2 h3 h4 h5
    have hmono : ∀ j k : Nat, j ≤ k → cadence m j ≤ cadence m k := by
      intro j k hjk
      unfold cadence
      have := scale_round_mono (GST_SECOND * m.fpsD) m.fpsN hjk
      omega
    have hb1 : cadence m (m.nframes + 1) < CLOCK_NONE := by
      have := hmono (m.nframes + 1) (m.nframes + (ins :: rest).length + 1)
        (by rw [List.length_cons]; omega)
      omega
    obtain ⟨hs1, hs2, hs3, hs4, hs5, hs6, hs7, hs8, hs9, hs10⟩ :=
      aggregate_step m ins h1 h2 h3 h4 hb1
    have hcad : ∀ k, cadence (gst_basemixer_aggregate m ins).1 k =
        cadence m k := by
      intro k
      unfold cadence
      rw [hs1, hs3, hs4, hs5]
    have h1' : 0 < (gst_basemixer_aggregate m ins).1.fpsN := by
      rw [hs4]; exact h1
    have h2' : (gst_basemixer_aggregate m ins).1.fpsN ≤
        GST_SECOND * (gst_basemixer_aggregate m ins).1.fpsD := by
      rw [hs4, hs5]; exact h2
    have h3' : (gst_basemixer_aggregate m ins).1.segStop = CLOCK_NONE := by
      rw [hs2]; exact h3
    have h5' : cadence (gst_basemixer_aggregate m ins).1
        ((gst_basemixer_aggregate m ins).1.nframes + rest.length + 1) <
        CLOCK_NONE := by
      rw [hcad]
      have := hmono ((gst_basemixer_aggregate m ins).1.nframes +
          rest.length + 1) (m.nframes + (ins :: rest).length + 1)
        (by rw [List.length_cons]; omega)
      omega
    have IH := ih (gst_basemixer_aggregate m ins).1 h1' h2' h3' hs7 h5'
    have hrun1 : (runTicks m (ins :: rest)).1 =
        (runTicks (gst_basemixer_aggregate m ins).1 rest).1 := rfl
    have hrun2 : (runTicks m (ins :: rest)).2 =
        (match (gst_basemixer_aggregate m ins).2.emitted with
         | some e => e :: (runTicks (gst_basemixer_aggregate m ins).1 rest).2
         | none => (runTicks (gst_basemixer_aggregate m ins).1 rest).2) :=
      rfl
    rcases hopt : (gst_basemixer_aggregate m ins).2.emitted with _ | e
    · rw [hopt] at hrun2
      simp only [] at hrun2
      refine ⟨by rw [hrun2]; exact IH.1, ?_, ?_, ?_⟩
      · intro e he
        rw [hrun2] at he
        exact le_trans hs8 (IH.2.1 e he)
      · rw [hrun1]
        exact le_trans hs8 IH.2.2.1
      · intro hne
        rw [hrun1]
        obtain ⟨hne1, hle1⟩ := hs9 hne
        obtain ⟨hne2, hle2⟩ := IH.2.2.2 hne1
        exact ⟨hne2, le_trans hle1 hle2⟩
    · rw [hopt] at hrun2
      simp only [] at hrun2
      obtain ⟨he1, he2, he3, he4⟩ := hs10 e hopt
      refine ⟨?_, ?_, ?_, ?_⟩
      · rw [hrun2, List.chain'_cons']
        refine ⟨?_, IH.1⟩
        intro y hy
        have hmem : y ∈ (runTicks (gst_basemixer_aggregate m ins).1
            rest).2 := List.mem_of_mem_head? hy
        have := IH.2.1 y hmem
        omega
      · intro f hf
        rw [hrun2] at hf
        rcases List.mem_cons.mp hf with rfl | hf
        · omega
        · have := IH.2.1 f hf
          omega
      · rw [hrun1]
        exact le_trans hs8 IH.2.2.1
      · intro hne
        rw [hrun1]
        obtain ⟨hne1, hle1⟩ := hs9 hne
        obtain ⟨hne2, hle2⟩ := IH.2.2.2 hne1
        exact ⟨hne2, le_trans hle1 hle2⟩

/-- C2 (amended): across any sequence of aggregate ticks without an
intervening flush or seek, and provided the output frame period is at
least one nanosecond (`fps_n ≤ GST_SECOND · fps_d`), no `segment.stop`
clamp is active, and the cadence stays below the clock sentinel, the
timestamps of emitted output buffers are strictly monotonically
increasing and a defined `segment.position` is monotonically
non-decreasing; each emitted buffer is stamped `out_start` (the current
position, or `segment.start` when the position is undefined) and the
position is then advanced to `out_end > out_start`.  (As stated — with
no frame-period condition — the claim fails, see the counterexample.) -/
theorem C2_output_monotonic (m : GstBasemixer)
    (inputs : List (List (Option GstBuffer)))
    (hfpsN : 0 < m.fpsN) (hfpsND : m.fpsN ≤ GST_SECOND * m.fpsD)
    (hstop : m.segStop = CLOCK_NONE) (hInv : CadenceInv m)
    (hbound : cadence m (m.nframes + inputs.length + 1) < CLOCK_NONE) :
    List.Chain' (fun a b : Nat × Nat => a.1 < b.1) (runTicks m inputs).2 ∧
    (m.segPosition ≠ CLOCK_NONE →
      (runTicks m inputs).1.segPosition ≠ CLOCK_NONE ∧
      m.segPosition ≤ (runTicks m inputs).1.segPosition) ∧
    (∀ ins e, (gst_basemixer_aggregate m ins).2.emitted = some e →
      e.1 = outStartOf m ∧
      (gst_basemixer_aggregate m ins).1.segPosition = outEndOf m ∧
      outStartOf m < outEndOf m) := by
  have hb1 : cadence m (m.nframes + 1) < CLOCK_NONE := by
    have : cadence m (m.nframes + 1) ≤
        cadence m (m.nframes + inputs.length + 1) := by
      unfold cadence
      have := scale_round_mono (GST_SECOND * m.fpsD) m.fpsN
        (show m.nframes + 1 ≤ m.nframes + inputs.length + 1 by omega)
      omega
    omega
  have hrun := runTicks_spec inputs m hfpsN hfpsND hstop hInv hbound
  refine ⟨hrun.1, hrun.2.2.2, ?_⟩
  intro ins e he
  obtain ⟨_, _, _, _, _, _, _, _, _, hs10⟩ :=
    aggregate_step m ins hfpsN hfpsND hstop hInv hb1
  obtain ⟨he1, he2, he3, _⟩ := hs10 e he
  exact ⟨he1, he2, he3⟩

/-- C2 counterexample: at the negotiable framerate `2147483647/1` the
per-frame cadence increment rounds to 0 ns, so two consecutive ticks
both emit buffers stamped `0` — the emitted timestamps are not strictly
monotonically increasing and the first tick advances the position to
`out_end = out_start`, contradicting the claim as stated. -/
theorem C2_output_monotonic_cex :
    (runTicks mixC2cex [[none], [none]]).2 = [(0, 0), (0, 1)] ∧
    ¬ List.Chain' (fun a b : Nat × Nat => a.1 < b.1)
        (runTicks mixC2cex [[none], [none]]).2 := by
  have h : (runTicks mixC2cex [[none], [none]]).2 = [(0, 0), (0, 1)] := by
    decide
  refine ⟨h, ?_⟩
  rw [h]
  intro hc
  have h2 := (List.chain'_cons.mp hc).1
  omega

/-- C2 witness: two ticks of the 10 fps mixer emit strictly increasing
timestamps (`0` then `100 ms`) and satisfy the per-tick stamping and
position-advance facts. -/
theorem C2_output_monotonic_witness :
    List.Chain' (fun a b : Nat × Nat => a.1 < b.1)
      (runTicks mixTick2 [[none], [none]]).2 ∧
    (mixTick2.segPosition ≠ CLOCK_NONE →
      (runTicks mixTick2 [[none], [none]]).1.segPosition ≠ CLOCK_NONE ∧
      mixTick2.segPosition ≤
        (runTicks mixTick2 [[none], [none]]).1.segPosition) ∧
    (∀ ins e,
      (gst_basemixer_aggregate mixTick2 ins).2.emitted = some e →
      e.1 = outStartOf mixTick2 ∧
      (gst_basemixer_aggregate mixTick2 ins).1.segPosition =
        outEndOf mixTick2 ∧
      outStartOf mixTick2 < outEndOf mixTick2) :=
  C2_output_monotonic mixTick2 [[none], [none]] (by decide) (by decide)
    (by decide) (Or.inl rfl) (by decide)

end Basemixer
